import Mathlib

/-!
# Verification of the Fast-Fonts rule generator and glyph-variant synthesis

This development embeds the core logic of `scripts/make_fast_font.py`:

* `make_fast_font_features` — the OpenType `calt` feature text, copied
  verbatim from the source, together with a structured view (`rules`,
  `tiers`) proved equal to the rule statements occurring in that text;
* the contextual-substitution engine semantics that the emitted rules
  target (first-matching-rule-wins at each glyph position, left to right,
  `ignore` rules blocking substitution), specialised to a single word of
  alphabet glyphs flanked by non-alphabet glyphs;
* `add_bold_glyphs` — the bold-variant synthesis over character maps,
  glyph tables and metric tables, modelled with explicit state passing;
* the name-record update performed by `main` (append " Fast" when the
  name does not already contain "Fast").
-/

set_option linter.unusedVariables false

/-- The OpenType feature code returned by `make_fast_font_features` in
`scripts/make_fast_font.py`, copied verbatim. -/
def make_fast_font_features : String := "
feature calt \x7b
    @az = [a-z A-Z];
    @AZ = [a.bold-z.bold A.bold-Z.bold];
    @all = [@az @AZ];

    # Fast reading rules - bold first ~40% of each word
    # Based on Fast-Font implementation

    # 17+ character words (7 chars bold)
    ignore sub @all @all @all @all @all @all @all @az' @all @all @all @all @all @all @all @all @all @all;
    sub @all @all @all @all @all @all @az' @all @all @all @all @all @all @all @all @all @all by @AZ;

    # 14-16 character words (6 chars bold)
    ignore sub @all @all @all @all @all @all @az' @all @all @all @all @all @all @all @all;
    sub @all @all @all @all @all @az' @all @all @all @all @all @all @all @all by @AZ;

    # 12-13 character words (5 chars bold)
    ignore sub @all @all @all @all @all @az' @all @all @all @all @all @all;
    sub @all @all @all @all @az' @all @all @all @all @all @all @all by @AZ;

    # 9-11 character words (4 chars bold)
    ignore sub @all @all @all @all @az' @all @all @all @all @all;
    sub @all @all @all @az' @all @all @all @all @all by @AZ;

    # 7-8 character words (3 chars bold)
    ignore sub @all @all @all @az' @all @all @all @all;
    sub @all @all @az' @all @all @all @all by @AZ;

    # 4-6 character words (2 chars bold)
    ignore sub @all @all @az' @all @all;
    sub @all @az' @all @all by @AZ;

    # 1-3 character words (1 char bold)
    ignore sub @all @az';
    sub @az' by @AZ;
\x7d calt;
"

/-- A single `calt` rule statement from the feature code.  Every rule line
in the feature text has the shape
`[ignore] sub @all … @all @az' @all … @all [by @AZ];` —
`pre` many `@all` tokens, the marked `@az'` token, then `post` many `@all`
tokens.  `isIgnore` distinguishes the exclusion (`ignore sub …`) statements
from the substitution (`sub … by @AZ`) statements. -/
structure FeaRule where
  isIgnore : Bool
  pre : Nat
  post : Nat
deriving DecidableEq, Repr

/-- Number of glyph-class tokens in the rule's context window. -/
def FeaRule.window (r : FeaRule) : Nat := r.pre + 1 + r.post

/-- A word-length tier, as documented by the comments in the feature code:
`minLen`–`maxLen` character words get `bold` characters bolded
(`maxLen = none` for the open-ended `17+` tier). -/
structure Tier where
  minLen : Nat
  maxLen : Option Nat
  bold : Nat
deriving DecidableEq, Repr

/-- The seven tiers hard-coded in `make_fast_font_features`, in the order
their rule blocks appear in the feature text (descending `minLen`). -/
def tiers : List Tier :=
  [⟨17, none, 7⟩, ⟨14, some 16, 6⟩, ⟨12, some 13, 5⟩, ⟨9, some 11, 4⟩,
   ⟨7, some 8, 3⟩, ⟨4, some 6, 2⟩, ⟨1, some 3, 1⟩]

/-- Modelled from the spec: the exclusion (`ignore sub`) statement the
spec's §4.1 prescribes for a tier — `bold` many `@all` tokens, the marked
`@az'`, then `minLen - bold` further `@all` tokens, a window of
`minLen + 1` tokens in total. -/
def Tier.ignRule (t : Tier) : FeaRule := ⟨true, t.bold, t.minLen - t.bold⟩

/-- The substitution statement of a tier: `bold - 1` many `@all` tokens,
the marked `@az'`, then `minLen - bold` further `@all` tokens (window of
`minLen` tokens, marked token at 0-indexed offset `bold - 1`). -/
def Tier.subRule (t : Tier) : FeaRule := ⟨false, t.bold - 1, t.minLen - t.bold⟩

/-- The full compiled rule sequence, parsed off the feature text in source
order (see `ruleLines_eq_render` for the proof that this list is exactly
the sequence of rule statements in `make_fast_font_features`).  Note the
fifth statement — the ignore rule of the 12–13 tier — has a 12-token
window (`pre = 5`, `post = 6`), unlike every other tier whose ignore
window is `minLen + 1`. -/
def rules : List FeaRule :=
  [⟨true, 7, 10⟩, ⟨false, 6, 10⟩,
   ⟨true, 6, 8⟩, ⟨false, 5, 8⟩,
   ⟨true, 5, 6⟩, ⟨false, 4, 7⟩,
   ⟨true, 4, 5⟩, ⟨false, 3, 5⟩,
   ⟨true, 3, 4⟩, ⟨false, 2, 4⟩,
   ⟨true, 2, 2⟩, ⟨false, 1, 2⟩,
   ⟨true, 1, 0⟩, ⟨false, 0, 0⟩]

/-- Render a rule back to its feature-file statement text. -/
def renderRule (r : FeaRule) : List Char :=
  (String.toList (if r.isIgnore then "ignore sub " else "sub ")) ++
  (String.intercalate " "
    (List.replicate r.pre "@all" ++ ["@az\x27"] ++ List.replicate r.post "@all")).toList ++
  (String.toList (if r.isIgnore then ";" else " by @AZ;"))

/-- Tail-recursive worker for `splitNl`. -/
def splitNlAux : List Char → List Char → List (List Char) → List (List Char)
  | [], cur, acc => (cur.reverse :: acc).reverse
  | c :: rest, cur, acc =>
    if c = '\n' then splitNlAux rest [] (cur.reverse :: acc)
    else splitNlAux rest (c :: cur) acc

/-- Split a character list at newline characters. -/
def splitNl (s : List Char) : List (List Char) := splitNlAux s [] []

/-- Drop leading spaces of a line. -/
def trimIndent (l : List Char) : List Char := l.dropWhile (· = ' ')

/-- Is this (indentation-trimmed) line one of the `calt` rule statements? -/
def isRuleLine (l : List Char) : Bool :=
  List.isPrefixOf "sub ".toList l || List.isPrefixOf "ignore ".toList l

/-- The rule statements of a feature text, in source order, with
indentation removed. -/
def ruleLines (s : String) : List (List Char) :=
  ((splitNl s.toList).map trimIndent).filter isRuleLine

set_option maxRecDepth 100000

/-- The structured rule list `rules` is exactly the sequence of rule
statements occurring in the feature text returned by
`make_fast_font_features`, in the same order. -/
theorem ruleLines_eq_render :
    ruleLines make_fast_font_features = rules.map renderRule := by decide

/-! ## The contextual-substitution engine

The emitted `calt` rules target OpenType's contextual-alternate engine:
glyph positions are processed left to right, and at each position the
first rule (in emission order) whose context pattern matches is applied —
an `ignore` rule blocks substitution at that position, a substitution
rule replaces the single marked glyph by its bold counterpart.  We model
a single word as a `List Bool` (`false` = base alphabet glyph `@az`,
`true` = bold glyph `@AZ`), flanked by non-alphabet glyphs; `@all`
matches any in-word glyph, so a rule's pattern matches at position `q`
exactly when its window lies inside the word and the marked glyph at `q`
is still a base glyph. -/

/-- Does rule `r`'s pattern match, with its marked token at position `q`,
in the word `w`?  Requires the `pre` tokens before and `post` tokens
after `q` to lie inside the word, and the glyph at `q` to be of the base
class `@az`. -/
def matchesAt (r : FeaRule) (w : List Bool) (q : Nat) : Bool :=
  decide (r.pre ≤ q ∧ q + r.post + 1 ≤ w.length ∧ w[q]? = some false)

/-- Pattern match against a fully-base word of length `N` (arithmetic
version of `matchesAt`). -/
def smatch (r : FeaRule) (N q : Nat) : Bool :=
  decide (r.pre ≤ q ∧ q + r.post + 1 ≤ N)

/-- One engine step at position `q`: the first matching rule is applied;
an `ignore` rule leaves the word unchanged, a substitution rule bolds the
marked glyph. -/
def step (w : List Bool) (q : Nat) : List Bool :=
  match rules.find? (fun r => matchesAt r w q) with
  | some r => if r.isIgnore then w else w.set q true
  | none => w

theorem step_length (w : List Bool) (q : Nat) : (step w q).length = w.length := by
  unfold step
  rcases rules.find? (fun r => matchesAt r w q) with _ | r
  · rfl
  · by_cases hi : r.isIgnore <;> simp [hi]

/-- Process positions `q, q+1, …` of the word (`fuel` bounds the number
of remaining positions; structural recursion keeps the definition
computable by kernel reduction). -/
def runAux : Nat → List Bool → Nat → List Bool
  | 0, w, _ => w
  | fuel + 1, w, q => if q < w.length then runAux fuel (step w q) (q + 1) else w

/-- Run the `calt` engine over a whole word, left to right. -/
def runCalt (w : List Bool) : List Bool := runAux w.length w 0

/-- The rule that fires (first match in emission order) at position `q`
of a fully-base word of length `N`. -/
def firedRule (N q : Nat) : Option FeaRule :=
  rules.find? (fun r => smatch r N q)

/-- Does the engine bold position `q` of a fully-base word of length `N`?
True exactly when the first matching rule is a substitution. -/
def boldAt (N q : Nat) : Bool :=
  match firedRule N q with
  | some r => !r.isIgnore
  | none => false

/-- Is word length `N` in tier `t`'s range `[minLen, maxLen]`? -/
def Tier.contains (t : Tier) (N : Nat) : Bool :=
  decide (t.minLen ≤ N) && (match t.maxLen with | none => true | some m => decide (N ≤ m))

/-- The tier whose length range contains `N`. -/
def tierFor (N : Nat) : Option Tier := tiers.find? (Tier.contains · N)

/-- The number of characters the tier table bolds for a word of length
`N` (0 when no tier contains `N`, which happens only for `N = 0`). -/
def boldCountFor (N : Nat) : Nat :=
  match tierFor N with
  | some t => t.bold
  | none => 0

theorem find?_congr {α : Type} (l : List α) (f g : α → Bool)
    (h : ∀ a, f a = g a) : l.find? f = l.find? g := by
  induction l with
  | nil => rfl
  | cons a l ih => simp [List.find?_cons, h, ih]

theorem matchesAt_eq_smatch (r : FeaRule) (w : List Bool) (q : Nat)
    (hw : w[q]? = some false) : matchesAt r w q = smatch r w.length q := by
  simp [matchesAt, smatch, hw]

theorem step_getElem_ne (w : List Bool) (q j : Nat) (h : j ≠ q) :
    (step w q)[j]? = w[j]? := by
  unfold step
  rcases rules.find? (fun r => matchesAt r w q) with _ | r
  · rfl
  · by_cases hi : r.isIgnore
    · simp [hi]
    · simp [hi, List.getElem?_set_ne (fun hq => h hq.symm)]

theorem step_getElem_self (w : List Bool) (q : Nat) (hq : q < w.length)
    (hw : w[q]? = some false) :
    (step w q)[q]? = some (boldAt w.length q) := by
  have hcong : rules.find? (fun r => matchesAt r w q) = firedRule w.length q := by
    unfold firedRule
    exact find?_congr _ _ _ (fun r => matchesAt_eq_smatch r w q hw)
  unfold step
  rw [hcong]
  unfold boldAt
  rcases hf : firedRule w.length q with _ | r
  · simpa using hw
  · by_cases hi : r.isIgnore
    · simp [hi, hw]
    · simp [hi, List.getElem?_set_self hq]

theorem runAux_getElem : ∀ (fuel : Nat) (w : List Bool) (q0 : Nat),
    w.length - q0 ≤ fuel →
    (∀ q, q0 ≤ q → q < w.length → w[q]? = some false) →
    ∀ j, (runAux fuel w q0)[j]? =
      if j < q0 then w[j]?
      else if j < w.length then some (boldAt w.length j) else none := by
  intro fuel
  induction fuel with
  | zero =>
    intro w q0 hk hinv j
    show w[j]? = _
    by_cases h1 : j < q0
    · rw [if_pos h1]
    · rw [if_neg h1, if_neg (by omega), List.getElem?_eq_none (by omega)]
  | succ fuel ih =>
    intro w q0 hk hinv j
    show (if q0 < w.length then runAux fuel (step w q0) (q0 + 1) else w)[j]? = _
    by_cases hq : q0 < w.length
    case neg =>
      rw [if_neg hq]
      by_cases h1 : j < q0
      · rw [if_pos h1]
      · rw [if_neg h1, if_neg (by omega), List.getElem?_eq_none (by omega)]
    case pos =>
      rw [if_pos hq]
      have hw0 : w[q0]? = some false := hinv q0 le_rfl hq
      have hlen : (step w q0).length = w.length := step_length w q0
      have hinv' : ∀ q, q0 + 1 ≤ q → q < (step w q0).length →
          (step w q0)[q]? = some false := by
        intro q h1 h2
        rw [step_getElem_ne w q0 q (by omega)]
        exact hinv q (by omega) (by omega)
      rw [ih (step w q0) (q0 + 1) (by omega) hinv' j, hlen]
      by_cases h1 : j < q0
      · rw [if_pos (show j < q0 + 1 by omega), if_pos h1,
          step_getElem_ne w q0 j (by omega)]
      · by_cases h2 : j = q0
        · subst h2
          rw [if_pos (show j < j + 1 by omega),
            step_getElem_self w j hq hw0, if_neg h1, if_pos hq]
        · rw [if_neg (show ¬ j < q0 + 1 by omega), if_neg h1]

/-- The engine's output on a fresh all-base word of length `N`: position
`j` ends up bold exactly when the first rule firing at `j` is a
substitution rule. -/
theorem runCalt_getElem (N j : Nat) :
    (runCalt (List.replicate N false))[j]? =
      if j < N then some (boldAt N j) else none := by
  have := runAux_getElem N (List.replicate N false) 0 (by simp)
    (fun q _ hq => by simp at hq; simp [hq]) j
  simpa [runCalt] using this

set_option maxHeartbeats 1000000

/-- Closed form of the tier lookup. -/
theorem boldCountFor_eq (N : Nat) :
    boldCountFor N =
      if 17 ≤ N then 7 else if 14 ≤ N then 6 else if 12 ≤ N then 5
      else if 9 ≤ N then 4 else if 7 ≤ N then 3 else if 4 ≤ N then 2
      else if 1 ≤ N then 1 else 0 := by
  by_cases h0 : 17 ≤ N
  case pos => simp [boldCountFor, tierFor, tiers, Tier.contains, List.find?, h0]
  case neg =>
  by_cases h1 : 14 ≤ N
  case pos =>
    simp [boldCountFor, tierFor, tiers, Tier.contains, List.find?, h0, h1,
      show N ≤ 16 by omega]
  case neg =>
  by_cases h2 : 12 ≤ N
  case pos =>
    simp [boldCountFor, tierFor, tiers, Tier.contains, List.find?, h0, h1, h2,
      show N ≤ 13 by omega]
  case neg =>
  by_cases h3 : 9 ≤ N
  case pos =>
    simp [boldCountFor, tierFor, tiers, Tier.contains, List.find?, h0, h1, h2, h3,
      show N ≤ 11 by omega]
  case neg =>
  by_cases h4 : 7 ≤ N
  case pos =>
    simp [boldCountFor, tierFor, tiers, Tier.contains, List.find?, h0, h1, h2, h3, h4,
      show N ≤ 8 by omega]
  case neg =>
  by_cases h5 : 4 ≤ N
  case pos =>
    simp [boldCountFor, tierFor, tiers, Tier.contains, List.find?, h0, h1, h2, h3, h4, h5,
      show N ≤ 6 by omega]
  case neg =>
  by_cases h6 : 1 ≤ N
  case pos =>
    simp [boldCountFor, tierFor, tiers, Tier.contains, List.find?, h0, h1, h2, h3, h4, h5, h6,
      show N ≤ 3 by omega]
  case neg =>
  simp [boldCountFor, tierFor, tiers, Tier.contains, List.find?, h0, h1, h2, h3, h4, h5, h6]

/-- The arithmetic heart of the rule cascade: on a fully-base word of
length `N`, the first rule firing at position `q` is a substitution rule
exactly when `q` lies in the bold prefix prescribed by the tier table. -/
theorem boldAt_iff (N q : Nat) (hq : q < N) :
    boldAt N q = true ↔ q < boldCountFor N := by
  by_cases h0 : 7 ≤ q ∧ q + 10 + 1 ≤ N
  case pos =>
    have e0 : smatch ⟨true, 7, 10⟩ N q = true := by
      simp only [smatch, decide_eq_true_eq]; omega
    simp [boldAt, firedRule, rules, List.find?, e0, boldCountFor_eq]
    split_ifs <;> omega
  case neg =>
  by_cases h1 : 6 ≤ q ∧ q + 10 + 1 ≤ N
  case pos =>
    have e0 : smatch ⟨true, 7, 10⟩ N q = false := by
      simp only [smatch, decide_eq_false_iff_not]; omega
    have e1 : smatch ⟨false, 6, 10⟩ N q = true := by
      simp only [smatch, decide_eq_true_eq]; omega
    simp [boldAt, firedRule, rules, List.find?, e0, e1, boldCountFor_eq]
    split_ifs <;> omega
  case neg =>
  by_cases h2 : 6 ≤ q ∧ q + 8 + 1 ≤ N
  case pos =>
    have e0 : smatch ⟨true, 7, 10⟩ N q = false := by
      simp only [smatch, decide_eq_false_iff_not]; omega
    have e1 : smatch ⟨false, 6, 10⟩ N q = false := by
      simp only [smatch, decide_eq_false_iff_not]; omega
    have e2 : smatch ⟨true, 6, 8⟩ N q = true := by
      simp only [smatch, decide_eq_true_eq]; omega
    simp [boldAt, firedRule, rules, List.find?, e0, e1, e2, boldCountFor_eq]
    split_ifs <;> omega
  case neg =>
  by_cases h3 : 5 ≤ q ∧ q + 8 + 1 ≤ N
  case pos =>
    have e0 : smatch ⟨true, 7, 10⟩ N q = false := by
      simp only [smatch, decide_eq_false_iff_not]; omega
    have e1 : smatch ⟨false, 6, 10⟩ N q = false := by
      simp only [smatch, decide_eq_false_iff_not]; omega
    have e2 : smatch ⟨true, 6, 8⟩ N q = false := by
      simp only [smatch, decide_eq_false_iff_not]; omega
    have e3 : smatch ⟨false, 5, 8⟩ N q = true := by
      simp only [smatch, decide_eq_true_eq]; omega
    simp [boldAt, firedRule, rules, List.find?, e0, e1, e2, e3, boldCountFor_eq]
    split_ifs <;> omega
  case neg =>
  by_cases h4 : 5 ≤ q ∧ q + 6 + 1 ≤ N
  case pos =>
    have e0 : smatch ⟨true, 7, 10⟩ N q = false := by
      simp only [smatch, decide_eq_false_iff_not]; omega
    have e1 : smatch ⟨false, 6, 10⟩ N q = false := by
      simp only [smatch, decide_eq_false_iff_not]; omega
    have e2 : smatch ⟨true, 6, 8⟩ N q = false := by
      simp only [smatch, decide_eq_false_iff_not]; omega
    have e3 : smatch ⟨false, 5, 8⟩ N q = false := by
      simp only [smatch, decide_eq_false_iff_not]; omega
    have e4 : smatch ⟨true, 5, 6⟩ N q = true := by
      simp only [smatch, decide_eq_true_eq]; omega
    simp [boldAt, firedRule, rules, List.find?, e0, e1, e2, e3, e4, boldCountFor_eq]
    split_ifs <;> omega
  case neg =>
  by_cases h5 : 4 ≤ q ∧ q + 7 + 1 ≤ N
  case pos =>
    have e0 : smatch ⟨true, 7, 10⟩ N q = false := by
      simp only [smatch, decide_eq_false_iff_not]; omega
    have e1 : smatch ⟨false, 6, 10⟩ N q = false := by
      simp only [smatch, decide_eq_false_iff_not]; omega
    have e2 : smatch ⟨true, 6, 8⟩ N q = false := by
      simp only [smatch, decide_eq_false_iff_not]; omega
    have e3 : smatch ⟨false, 5, 8⟩ N q = false := by
      simp only [smatch, decide_eq_false_iff_not]; omega
    have e4 : smatch ⟨true, 5, 6⟩ N q = false := by
      simp only [smatch, decide_eq_false_iff_not]; omega
    have e5 : smatch ⟨false, 4, 7⟩ N q = true := by
      simp only [smatch, decide_eq_true_eq]; omega
    simp [boldAt, firedRule, rules, List.find?, e0, e1, e2, e3, e4, e5, boldCountFor_eq]
    split_ifs <;> omega
  case neg =>
  by_cases h6 : 4 ≤ q ∧ q + 5 + 1 ≤ N
  case pos =>
    have e0 : smatch ⟨true, 7, 10⟩ N q = false := by
      simp only [smatch, decide_eq_false_iff_not]; omega
    have e1 : smatch ⟨false, 6, 10⟩ N q = false := by
      simp only [smatch, decide_eq_false_iff_not]; omega
    have e2 : smatch ⟨true, 6, 8⟩ N q = false := by
      simp only [smatch, decide_eq_false_iff_not]; omega
    have e3 : smatch ⟨false, 5, 8⟩ N q = false := by
      simp only [smatch, decide_eq_false_iff_not]; omega
    have e4 : smatch ⟨true, 5, 6⟩ N q = false := by
      simp only [smatch, decide_eq_false_iff_not]; omega
    have e5 : smatch ⟨false, 4, 7⟩ N q = false := by
      simp only [smatch, decide_eq_false_iff_not]; omega
    have e6 : smatch ⟨true, 4, 5⟩ N q = true := by
      simp only [smatch, decide_eq_true_eq]; omega
    simp [boldAt, firedRule, rules, List.find?, e0, e1, e2, e3, e4, e5, e6, boldCountFor_eq]
    split_ifs <;> omega
  case neg =>
  by_cases h7 : 3 ≤ q ∧ q + 5 + 1 ≤ N
  case pos =>
    have e0 : smatch ⟨true, 7, 10⟩ N q = false := by
      simp only [smatch, decide_eq_false_iff_not]; omega
    have e1 : smatch ⟨false, 6, 10⟩ N q = false := by
      simp only [smatch, decide_eq_false_iff_not]; omega
    have e2 : smatch ⟨true, 6, 8⟩ N q = false := by
      simp only [smatch, decide_eq_false_iff_not]; omega
    have e3 : smatch ⟨false, 5, 8⟩ N q = false := by
      simp only [smatch, decide_eq_false_iff_not]; omega
    have e4 : smatch ⟨true, 5, 6⟩ N q = false := by
      simp only [smatch, decide_eq_false_iff_not]; omega
    have e5 : smatch ⟨false, 4, 7⟩ N q = false := by
      simp only [smatch, decide_eq_false_iff_not]; omega
    have e6 : smatch ⟨true, 4, 5⟩ N q = false := by
      simp only [smatch, decide_eq_false_iff_not]; omega
    have e7 : smatch ⟨false, 3, 5⟩ N q = true := by
      simp only [smatch, decide_eq_true_eq]; omega
    simp [boldAt, firedRule, rules, List.find?, e0, e1, e2, e3, e4, e5, e6, e7, boldCountFor_eq]
    split_ifs <;> omega
  case neg =>
  by_cases h8 : 3 ≤ q ∧ q + 4 + 1 ≤ N
  case pos =>
    have e0 : smatch ⟨true, 7, 10⟩ N q = false := by
      simp only [smatch, decide_eq_false_iff_not]; omega
    have e1 : smatch ⟨false, 6, 10⟩ N q = false := by
      simp only [smatch, decide_eq_false_iff_not]; omega
    have e2 : smatch ⟨true, 6, 8⟩ N q = false := by
      simp only [smatch, decide_eq_false_iff_not]; omega
    have e3 : smatch ⟨false, 5, 8⟩ N q = false := by
      simp only [smatch, decide_eq_false_iff_not]; omega
    have e4 : smatch ⟨true, 5, 6⟩ N q = false := by
      simp only [smatch, decide_eq_false_iff_not]; omega
    have e5 : smatch ⟨false, 4, 7⟩ N q = false := by
      simp only [smatch, decide_eq_false_iff_not]; omega
    have e6 : smatch ⟨true, 4, 5⟩ N q = false := by
      simp only [smatch, decide_eq_false_iff_not]; omega
    have e7 : smatch ⟨false, 3, 5⟩ N q = false := by
      simp only [smatch, decide_eq_false_iff_not]; omega
    have e8 : smatch ⟨true, 3, 4⟩ N q = true := by
      simp only [smatch, decide_eq_true_eq]; omega
    simp [boldAt, firedRule, rules, List.find?, e0, e1, e2, e3, e4, e5, e6, e7, e8, boldCountFor_eq]
    split_ifs <;> omega
  case neg =>
  by_cases h9 : 2 ≤ q ∧ q + 4 + 1 ≤ N
  case pos =>
    have e0 : smatch ⟨true, 7, 10⟩ N q = false := by
      simp only [smatch, decide_eq_false_iff_not]; omega
    have e1 : smatch ⟨false, 6, 10⟩ N q = false := by
      simp only [smatch, decide_eq_false_iff_not]; omega
    have e2 : smatch ⟨true, 6, 8⟩ N q = false := by
      simp only [smatch, decide_eq_false_iff_not]; omega
    have e3 : smatch ⟨false, 5, 8⟩ N q = false := by
      simp only [smatch, decide_eq_false_iff_not]; omega
    have e4 : smatch ⟨true, 5, 6⟩ N q = false := by
      simp only [smatch, decide_eq_false_iff_not]; omega
    have e5 : smatch ⟨false, 4, 7⟩ N q = false := by
      simp only [smatch, decide_eq_false_iff_not]; omega
    have e6 : smatch ⟨true, 4, 5⟩ N q = false := by
      simp only [smatch, decide_eq_false_iff_not]; omega
    have e7 : smatch ⟨false, 3, 5⟩ N q = false := by
      simp only [smatch, decide_eq_false_iff_not]; omega
    have e8 : smatch ⟨true, 3, 4⟩ N q = false := by
      simp only [smatch, decide_eq_false_iff_not]; omega
    have e9 : smatch ⟨false, 2, 4⟩ N q = true := by
      simp only [smatch, decide_eq_true_eq]; omega
    simp [boldAt, firedRule, rules, List.find?, e0, e1, e2, e3, e4, e5, e6, e7, e8, e9, boldCountFor_eq]
    split_ifs <;> omega
  case neg =>
  by_cases h10 : 2 ≤ q ∧ q + 2 + 1 ≤ N
  case pos =>
    have e0 : smatch ⟨true, 7, 10⟩ N q = false := by
      simp only [smatch, decide_eq_false_iff_not]; omega
    have e1 : smatch ⟨false, 6, 10⟩ N q = false := by
      simp only [smatch, decide_eq_false_iff_not]; omega
    have e2 : smatch ⟨true, 6, 8⟩ N q = false := by
      simp only [smatch, decide_eq_false_iff_not]; omega
    have e3 : smatch ⟨false, 5, 8⟩ N q = false := by
      simp only [smatch, decide_eq_false_iff_not]; omega
    have e4 : smatch ⟨true, 5, 6⟩ N q = false := by
      simp only [smatch, decide_eq_false_iff_not]; omega
    have e5 : smatch ⟨false, 4, 7⟩ N q = false := by
      simp only [smatch, decide_eq_false_iff_not]; omega
    have e6 : smatch ⟨true, 4, 5⟩ N q = false := by
      simp only [smatch, decide_eq_false_iff_not]; omega
    have e7 : smatch ⟨false, 3, 5⟩ N q = false := by
      simp only [smatch, decide_eq_false_iff_not]; omega
    have e8 : smatch ⟨true, 3, 4⟩ N q = false := by
      simp only [smatch, decide_eq_false_iff_not]; omega
    have e9 : smatch ⟨false, 2, 4⟩ N q = false := by
      simp only [smatch, decide_eq_false_iff_not]; omega
    have e10 : smatch ⟨true, 2, 2⟩ N q = true := by
      simp only [smatch, decide_eq_true_eq]; omega
    simp [boldAt, firedRule, rules, List.find?, e0, e1, e2, e3, e4, e5, e6, e7, e8, e9, e10, boldCountFor_eq]
    split_ifs <;> omega
  case neg =>
  by_cases h11 : 1 ≤ q ∧ q + 2 + 1 ≤ N
  case pos =>
    have e0 : smatch ⟨true, 7, 10⟩ N q = false := by
      simp only [smatch, decide_eq_false_iff_not]; omega
    have e1 : smatch ⟨false, 6, 10⟩ N q = false := by
      simp only [smatch, decide_eq_false_iff_not]; omega
    have e2 : smatch ⟨true, 6, 8⟩ N q = false := by
      simp only [smatch, decide_eq_false_iff_not]; omega
    have e3 : smatch ⟨false, 5, 8⟩ N q = false := by
      simp only [smatch, decide_eq_false_iff_not]; omega
    have e4 : smatch ⟨true, 5, 6⟩ N q = false := by
      simp only [smatch, decide_eq_false_iff_not]; omega
    have e5 : smatch ⟨false, 4, 7⟩ N q = false := by
      simp only [smatch, decide_eq_false_iff_not]; omega
    have e6 : smatch ⟨true, 4, 5⟩ N q = false := by
      simp only [smatch, decide_eq_false_iff_not]; omega
    have e7 : smatch ⟨false, 3, 5⟩ N q = false := by
      simp only [smatch, decide_eq_false_iff_not]; omega
    have e8 : smatch ⟨true, 3, 4⟩ N q = false := by
      simp only [smatch, decide_eq_false_iff_not]; omega
    have e9 : smatch ⟨false, 2, 4⟩ N q = false := by
      simp only [smatch, decide_eq_false_iff_not]; omega
    have e10 : smatch ⟨true, 2, 2⟩ N q = false := by
      simp only [smatch, decide_eq_false_iff_not]; omega
    have e11 : smatch ⟨false, 1, 2⟩ N q = true := by
      simp only [smatch, decide_eq_true_eq]; omega
    simp [boldAt, firedRule, rules, List.find?, e0, e1, e2, e3, e4, e5, e6, e7, e8, e9, e10, e11, boldCountFor_eq]
    split_ifs <;> omega
  case neg =>
  by_cases h12 : 1 ≤ q ∧ q + 0 + 1 ≤ N
  case pos =>
    have e0 : smatch ⟨true, 7, 10⟩ N q = false := by
      simp only [smatch, decide_eq_false_iff_not]; omega
    have e1 : smatch ⟨false, 6, 10⟩ N q = false := by
      simp only [smatch, decide_eq_false_iff_not]; omega
    have e2 : smatch ⟨true, 6, 8⟩ N q = false := by
      simp only [smatch, decide_eq_false_iff_not]; omega
    have e3 : smatch ⟨false, 5, 8⟩ N q = false := by
      simp only [smatch, decide_eq_false_iff_not]; omega
    have e4 : smatch ⟨true, 5, 6⟩ N q = false := by
      simp only [smatch, decide_eq_false_iff_not]; omega
    have e5 : smatch ⟨false, 4, 7⟩ N q = false := by
      simp only [smatch, decide_eq_false_iff_not]; omega
    have e6 : smatch ⟨true, 4, 5⟩ N q = false := by
      simp only [smatch, decide_eq_false_iff_not]; omega
    have e7 : smatch ⟨false, 3, 5⟩ N q = false := by
      simp only [smatch, decide_eq_false_iff_not]; omega
    have e8 : smatch ⟨true, 3, 4⟩ N q = false := by
      simp only [smatch, decide_eq_false_iff_not]; omega
    have e9 : smatch ⟨false, 2, 4⟩ N q = false := by
      simp only [smatch, decide_eq_false_iff_not]; omega
    have e10 : smatch ⟨true, 2, 2⟩ N q = false := by
      simp only [smatch, decide_eq_false_iff_not]; omega
    have e11 : smatch ⟨false, 1, 2⟩ N q = false := by
      simp only [smatch, decide_eq_false_iff_not]; omega
    have e12 : smatch ⟨true, 1, 0⟩ N q = true := by
      simp only [smatch, decide_eq_true_eq]; omega
    simp [boldAt, firedRule, rules, List.find?, e0, e1, e2, e3, e4, e5, e6, e7, e8, e9, e10, e11, e12, boldCountFor_eq]
    split_ifs <;> omega
  case neg =>
  by_cases h13 : 0 ≤ q ∧ q + 0 + 1 ≤ N
  case pos =>
    have e0 : smatch ⟨true, 7, 10⟩ N q = false := by
      simp only [smatch, decide_eq_false_iff_not]; omega
    have e1 : smatch ⟨false, 6, 10⟩ N q = false := by
      simp only [smatch, decide_eq_false_iff_not]; omega
    have e2 : smatch ⟨true, 6, 8⟩ N q = false := by
      simp only [smatch, decide_eq_false_iff_not]; omega
    have e3 : smatch ⟨false, 5, 8⟩ N q = false := by
      simp only [smatch, decide_eq_false_iff_not]; omega
    have e4 : smatch ⟨true, 5, 6⟩ N q = false := by
      simp only [smatch, decide_eq_false_iff_not]; omega
    have e5 : smatch ⟨false, 4, 7⟩ N q = false := by
      simp only [smatch, decide_eq_false_iff_not]; omega
    have e6 : smatch ⟨true, 4, 5⟩ N q = false := by
      simp only [smatch, decide_eq_false_iff_not]; omega
    have e7 : smatch ⟨false, 3, 5⟩ N q = false := by
      simp only [smatch, decide_eq_false_iff_not]; omega
    have e8 : smatch ⟨true, 3, 4⟩ N q = false := by
      simp only [smatch, decide_eq_false_iff_not]; omega
    have e9 : smatch ⟨false, 2, 4⟩ N q = false := by
      simp only [smatch, decide_eq_false_iff_not]; omega
    have e10 : smatch ⟨true, 2, 2⟩ N q = false := by
      simp only [smatch, decide_eq_false_iff_not]; omega
    have e11 : smatch ⟨false, 1, 2⟩ N q = false := by
      simp only [smatch, decide_eq_false_iff_not]; omega
    have e12 : smatch ⟨true, 1, 0⟩ N q = false := by
      simp only [smatch, decide_eq_false_iff_not]; omega
    have e13 : smatch ⟨false, 0, 0⟩ N q = true := by
      simp only [smatch, decide_eq_true_eq]; omega
    simp [boldAt, firedRule, rules, List.find?, e0, e1, e2, e3, e4, e5, e6, e7, e8, e9, e10, e11, e12, e13, boldCountFor_eq]
    split_ifs <;> omega
  case neg =>
  exact absurd ⟨Nat.zero_le q, hq⟩ h13

/-- At the decisive window offset `boldCountFor N - 1`, the rule that
fires is exactly the substitution rule of the tier containing `N`. -/
theorem firedRule_decisive (N : Nat) (h : 1 ≤ N) :
    firedRule N (boldCountFor N - 1) = (tierFor N).map Tier.subRule := by
  by_cases h0 : 17 ≤ N
  case pos =>
    have ht : tierFor N = some ⟨17, none, 7⟩ := by
      simp [tierFor, tiers, Tier.contains, List.find?, h0]
    have hb : boldCountFor N = 7 := by rw [boldCountFor_eq]; split_ifs <;> omega
    rw [ht, hb]
    have e0 : smatch ⟨true, 7, 10⟩ N 6 = false := by
      simp only [smatch, decide_eq_false_iff_not]; omega
    have e1 : smatch ⟨false, 6, 10⟩ N 6 = true := by
      simp only [smatch, decide_eq_true_eq]; omega
    simp [firedRule, rules, List.find?, Tier.subRule, e0, e1]
  case neg =>
  by_cases h1 : 14 ≤ N
  case pos =>
    have ht : tierFor N = some ⟨14, some 16, 6⟩ := by
      simp [tierFor, tiers, Tier.contains, List.find?, h0, h1,
        show N ≤ 16 by omega]
    have hb : boldCountFor N = 6 := by rw [boldCountFor_eq]; split_ifs <;> omega
    rw [ht, hb]
    have e0 : smatch ⟨true, 7, 10⟩ N 5 = false := by
      simp only [smatch, decide_eq_false_iff_not]; omega
    have e1 : smatch ⟨false, 6, 10⟩ N 5 = false := by
      simp only [smatch, decide_eq_false_iff_not]; omega
    have e2 : smatch ⟨true, 6, 8⟩ N 5 = false := by
      simp only [smatch, decide_eq_false_iff_not]; omega
    have e3 : smatch ⟨false, 5, 8⟩ N 5 = true := by
      simp only [smatch, decide_eq_true_eq]; omega
    simp [firedRule, rules, List.find?, Tier.subRule, e0, e1, e2, e3]
  case neg =>
  by_cases h2 : 12 ≤ N
  case pos =>
    have ht : tierFor N = some ⟨12, some 13, 5⟩ := by
      simp [tierFor, tiers, Tier.contains, List.find?, h0, h1, h2,
        show N ≤ 13 by omega]
    have hb : boldCountFor N = 5 := by rw [boldCountFor_eq]; split_ifs <;> omega
    rw [ht, hb]
    have e0 : smatch ⟨true, 7, 10⟩ N 4 = false := by
      simp only [smatch, decide_eq_false_iff_not]; omega
    have e1 : smatch ⟨false, 6, 10⟩ N 4 = false := by
      simp only [smatch, decide_eq_false_iff_not]; omega
    have e2 : smatch ⟨true, 6, 8⟩ N 4 = false := by
      simp only [smatch, decide_eq_false_iff_not]; omega
    have e3 : smatch ⟨false, 5, 8⟩ N 4 = false := by
      simp only [smatch, decide_eq_false_iff_not]; omega
    have e4 : smatch ⟨true, 5, 6⟩ N 4 = false := by
      simp only [smatch, decide_eq_false_iff_not]; omega
    have e5 : smatch ⟨false, 4, 7⟩ N 4 = true := by
      simp only [smatch, decide_eq_true_eq]; omega
    simp [firedRule, rules, List.find?, Tier.subRule, e0, e1, e2, e3, e4, e5]
  case neg =>
  by_cases h3 : 9 ≤ N
  case pos =>
    have ht : tierFor N = some ⟨9, some 11, 4⟩ := by
      simp [tierFor, tiers, Tier.contains, List.find?, h0, h1, h2, h3,
        show N ≤ 11 by omega]
    have hb : boldCountFor N = 4 := by rw [boldCountFor_eq]; split_ifs <;> omega
    rw [ht, hb]
    have e0 : smatch ⟨true, 7, 10⟩ N 3 = false := by
      simp only [smatch, decide_eq_false_iff_not]; omega
    have e1 : smatch ⟨false, 6, 10⟩ N 3 = false := by
      simp only [smatch, decide_eq_false_iff_not]; omega
    have e2 : smatch ⟨true, 6, 8⟩ N 3 = false := by
      simp only [smatch, decide_eq_false_iff_not]; omega
    have e3 : smatch ⟨false, 5, 8⟩ N 3 = false := by
      simp only [smatch, decide_eq_false_iff_not]; omega
    have e4 : smatch ⟨true, 5, 6⟩ N 3 = false := by
      simp only [smatch, decide_eq_false_iff_not]; omega
    have e5 : smatch ⟨false, 4, 7⟩ N 3 = false := by
      simp only [smatch, decide_eq_false_iff_not]; omega
    have e6 : smatch ⟨true, 4, 5⟩ N 3 = false := by
      simp only [smatch, decide_eq_false_iff_not]; omega
    have e7 : smatch ⟨false, 3, 5⟩ N 3 = true := by
      simp only [smatch, decide_eq_true_eq]; omega
    simp [firedRule, rules, List.find?, Tier.subRule, e0, e1, e2, e3, e4, e5, e6, e7]
  case neg =>
  by_cases h4 : 7 ≤ N
  case pos =>
    have ht : tierFor N = some ⟨7, some 8, 3⟩ := by
      simp [tierFor, tiers, Tier.contains, List.find?, h0, h1, h2, h3, h4,
        show N ≤ 8 by omega]
    have hb : boldCountFor N = 3 := by rw [boldCountFor_eq]; split_ifs <;> omega
    rw [ht, hb]
    have e0 : smatch ⟨true, 7, 10⟩ N 2 = false := by
      simp only [smatch, decide_eq_false_iff_not]; omega
    have e1 : smatch ⟨false, 6, 10⟩ N 2 = false := by
      simp only [smatch, decide_eq_false_iff_not]; omega
    have e2 : smatch ⟨true, 6, 8⟩ N 2 = false := by
      simp only [smatch, decide_eq_false_iff_not]; omega
    have e3 : smatch ⟨false, 5, 8⟩ N 2 = false := by
      simp only [smatch, decide_eq_false_iff_not]; omega
    have e4 : smatch ⟨true, 5, 6⟩ N 2 = false := by
      simp only [smatch, decide_eq_false_iff_not]; omega
    have e5 : smatch ⟨false, 4, 7⟩ N 2 = false := by
      simp only [smatch, decide_eq_false_iff_not]; omega
    have e6 : smatch ⟨true, 4, 5⟩ N 2 = false := by
      simp only [smatch, decide_eq_false_iff_not]; omega
    have e7 : smatch ⟨false, 3, 5⟩ N 2 = false := by
      simp only [smatch, decide_eq_false_iff_not]; omega
    have e8 : smatch ⟨true, 3, 4⟩ N 2 = false := by
      simp only [smatch, decide_eq_false_iff_not]; omega
    have e9 : smatch ⟨false, 2, 4⟩ N 2 = true := by
      simp only [smatch, decide_eq_true_eq]; omega
    simp [firedRule, rules, List.find?, Tier.subRule, e0, e1, e2, e3, e4, e5, e6, e7, e8, e9]
  case neg =>
  by_cases h5 : 4 ≤ N
  case pos =>
    have ht : tierFor N = some ⟨4, some 6, 2⟩ := by
      simp [tierFor, tiers, Tier.contains, List.find?, h0, h1, h2, h3, h4, h5,
        show N ≤ 6 by omega]
    have hb : boldCountFor N = 2 := by rw [boldCountFor_eq]; split_ifs <;> omega
    rw [ht, hb]
    have e0 : smatch ⟨true, 7, 10⟩ N 1 = false := by
      simp only [smatch, decide_eq_false_iff_not]; omega
    have e1 : smatch ⟨false, 6, 10⟩ N 1 = false := by
      simp only [smatch, decide_eq_false_iff_not]; omega
    have e2 : smatch ⟨true, 6, 8⟩ N 1 = false := by
      simp only [smatch, decide_eq_false_iff_not]; omega
    have e3 : smatch ⟨false, 5, 8⟩ N 1 = false := by
      simp only [smatch, decide_eq_false_iff_not]; omega
    have e4 : smatch ⟨true, 5, 6⟩ N 1 = false := by
      simp only [smatch, decide_eq_false_iff_not]; omega
    have e5 : smatch ⟨false, 4, 7⟩ N 1 = false := by
      simp only [smatch, decide_eq_false_iff_not]; omega
    have e6 : smatch ⟨true, 4, 5⟩ N 1 = false := by
      simp only [smatch, decide_eq_false_iff_not]; omega
    have e7 : smatch ⟨false, 3, 5⟩ N 1 = false := by
      simp only [smatch, decide_eq_false_iff_not]; omega
    have e8 : smatch ⟨true, 3, 4⟩ N 1 = false := by
      simp only [smatch, decide_eq_false_iff_not]; omega
    have e9 : smatch ⟨false, 2, 4⟩ N 1 = false := by
      simp only [smatch, decide_eq_false_iff_not]; omega
    have e10 : smatch ⟨true, 2, 2⟩ N 1 = false := by
      simp only [smatch, decide_eq_false_iff_not]; omega
    have e11 : smatch ⟨false, 1, 2⟩ N 1 = true := by
      simp only [smatch, decide_eq_true_eq]; omega
    simp [firedRule, rules, List.find?, Tier.subRule, e0, e1, e2, e3, e4, e5, e6, e7, e8, e9, e10, e11]
  case neg =>
  by_cases h6 : 1 ≤ N
  case pos =>
    have ht : tierFor N = some ⟨1, some 3, 1⟩ := by
      simp [tierFor, tiers, Tier.contains, List.find?, h0, h1, h2, h3, h4, h5, h6,
        show N ≤ 3 by omega]
    have hb : boldCountFor N = 1 := by rw [boldCountFor_eq]; split_ifs <;> omega
    rw [ht, hb]
    have e0 : smatch ⟨true, 7, 10⟩ N 0 = false := by
      simp only [smatch, decide_eq_false_iff_not]; omega
    have e1 : smatch ⟨false, 6, 10⟩ N 0 = false := by
      simp only [smatch, decide_eq_false_iff_not]; omega
    have e2 : smatch ⟨true, 6, 8⟩ N 0 = false := by
      simp only [smatch, decide_eq_false_iff_not]; omega
    have e3 : smatch ⟨false, 5, 8⟩ N 0 = false := by
      simp only [smatch, decide_eq_false_iff_not]; omega
    have e4 : smatch ⟨true, 5, 6⟩ N 0 = false := by
      simp only [smatch, decide_eq_false_iff_not]; omega
    have e5 : smatch ⟨false, 4, 7⟩ N 0 = false := by
      simp only [smatch, decide_eq_false_iff_not]; omega
    have e6 : smatch ⟨true, 4, 5⟩ N 0 = false := by
      simp only [smatch, decide_eq_false_iff_not]; omega
    have e7 : smatch ⟨false, 3, 5⟩ N 0 = false := by
      simp only [smatch, decide_eq_false_iff_not]; omega
    have e8 : smatch ⟨true, 3, 4⟩ N 0 = false := by
      simp only [smatch, decide_eq_false_iff_not]; omega
    have e9 : smatch ⟨false, 2, 4⟩ N 0 = false := by
      simp only [smatch, decide_eq_false_iff_not]; omega
    have e10 : smatch ⟨true, 2, 2⟩ N 0 = false := by
      simp only [smatch, decide_eq_false_iff_not]; omega
    have e11 : smatch ⟨false, 1, 2⟩ N 0 = false := by
      simp only [smatch, decide_eq_false_iff_not]; omega
    have e12 : smatch ⟨true, 1, 0⟩ N 0 = false := by
      simp only [smatch, decide_eq_false_iff_not]; omega
    have e13 : smatch ⟨false, 0, 0⟩ N 0 = true := by
      simp only [smatch, decide_eq_true_eq]; omega
    simp [firedRule, rules, List.find?, Tier.subRule, e0, e1, e2, e3, e4, e5, e6, e7, e8, e9, e10, e11, e12, e13]
  case neg =>
  exact absurd h (by omega)

/-- Rule `i` fires at position `q` of a fully-base word of length `N`:
its pattern matches there and no rule earlier in the emission order
matches (the engine applies the first matching rule, so this is the rule
the engine uses at that window). -/
def firesAt (N q : Nat) (i : Fin rules.length) : Prop :=
  smatch (rules.get i) N q = true ∧
  ∀ j : Fin rules.length, j < i → smatch (rules.get j) N q = false

instance (N q : Nat) (i : Fin rules.length) : Decidable (firesAt N q i) := by
  unfold firesAt; infer_instance

/-- First-match discipline: at most one rule fires at any given window. -/
theorem firesAt_unique (N q : Nat) (i j : Fin rules.length)
    (hi : firesAt N q i) (hj : firesAt N q j) : i = j := by
  rcases lt_trichotomy i j with h | h | h
  · have := hj.2 i h
    rw [hi.1] at this
    exact absurd this (by simp)
  · exact h
  · have := hi.2 j h
    rw [hj.1] at this
    exact absurd this (by simp)

/-! ## Bold-variant synthesis (`add_bold_glyphs`)

`add_bold_glyphs(font, bold_font)` reads both fonts' best character maps,
then for each character of `a–z` followed by `A–Z`: if the code point is
in both cmaps and the bold glyph is present in the bold font's `glyf`
table, it copies the outline into the regular font's `glyf` under the
name `<regular_glyph>.bold`, copies the advance metric when the bold
glyph is also in the bold font's `hmtx.metrics`, and counts the glyph.
We model a font as its cmap plus `glyf`/`hmtx` tables (association lists
with Python-`dict` update semantics), and the in-place mutation of the
regular font by explicit state passing. -/

structure TTFontT where
  cmap : List (Nat × String)
  glyf : List (String × Nat)
  hmtx : List (String × Nat)
deriving DecidableEq, Repr

/-- Character-map lookup (`unicode_val in cmap` / `cmap[unicode_val]`). -/
def lookupC (m : List (Nat × String)) (k : Nat) : Option String :=
  (m.find? (fun p => p.1 == k)).map (fun p => p.2)

/-- Glyph-table lookup (`name in table` / `table[name]`). -/
def lookupG (m : List (String × Nat)) (k : String) : Option Nat :=
  (m.find? (fun p => p.1 == k)).map (fun p => p.2)

/-- Python-`dict` assignment `table[name] = v`: overwrite an existing key
or append a new one. -/
def setG (m : List (String × Nat)) (k : String) (v : Nat) : List (String × Nat) :=
  if m.any (fun p => p.1 == k) then m.map (fun p => if p.1 == k then (k, v) else p)
  else m ++ [(k, v)]

/-- The character list built by `add_bold_glyphs`: `a`–`z` (code points
97–122) followed by `A`–`Z` (65–90), in that order. -/
def chars : List Char :=
  (List.range' 97 26).map Char.ofNat ++ (List.range' 65 26).map Char.ofNat

/-- One iteration of the `for char in chars` loop of `add_bold_glyphs`,
acting on the state (regular `glyf`, regular `hmtx`, `added_count`). -/
def boldVariantStep (regular_cmap : List (Nat × String)) (bold_font : TTFontT)
    (st : List (String × Nat) × List (String × Nat) × Nat) (c : Char) :
    List (String × Nat) × List (String × Nat) × Nat :=
  match lookupC regular_cmap c.toNat, lookupC bold_font.cmap c.toNat with
  | some regular_glyph, some bold_glyph =>
    match lookupG bold_font.glyf bold_glyph with
    | some outline =>
      (setG st.1 (regular_glyph ++ ".bold") outline,
       match lookupG bold_font.hmtx bold_glyph with
       | some m => setG st.2.1 (regular_glyph ++ ".bold") m
       | none => st.2.1,
       st.2.2 + 1)
    | none => st
  | _, _ => st

/-- `add_bold_glyphs`: returns the post-states of the regular font (its
`glyf`/`hmtx` mutated in place by the loop) and of the bold font (never
written), together with the returned `added_count`. -/
def add_bold_glyphs (font bold_font : TTFontT) : TTFontT × TTFontT × Nat :=
  let st := chars.foldl (boldVariantStep font.cmap bold_font) (font.glyf, font.hmtx, 0)
  (⟨font.cmap, st.1, st.2.1⟩, bold_font, st.2.2)

/-- Character `c` gets a bold variant: present in both cmaps and its bold
glyph has an outline in the bold `glyf` table. -/
def hasBoldSource (regular_cmap : List (Nat × String)) (bold_font : TTFontT)
    (c : Char) : Bool :=
  match lookupC regular_cmap c.toNat, lookupC bold_font.cmap c.toNat with
  | some _, some bold_glyph => (lookupG bold_font.glyf bold_glyph).isSome
  | _, _ => false

/-- Character `c` additionally gets its advance metric copied: as
`hasBoldSource`, plus the bold glyph is in the bold `hmtx` metrics. -/
def hasBoldMetric (regular_cmap : List (Nat × String)) (bold_font : TTFontT)
    (c : Char) : Bool :=
  match lookupC regular_cmap c.toNat, lookupC bold_font.cmap c.toNat with
  | some _, some bold_glyph =>
    (lookupG bold_font.glyf bold_glyph).isSome && (lookupG bold_font.hmtx bold_glyph).isSome
  | _, _ => false

/-- The outline insertion a qualifying character performs on the regular
`glyf` table. -/
def insOutline (regular_cmap : List (Nat × String)) (bold_font : TTFontT)
    (g : List (String × Nat)) (c : Char) : List (String × Nat) :=
  match lookupC regular_cmap c.toNat, lookupC bold_font.cmap c.toNat with
  | some regular_glyph, some bold_glyph =>
    match lookupG bold_font.glyf bold_glyph with
    | some outline => setG g (regular_glyph ++ ".bold") outline
    | none => g
  | _, _ => g

/-- The metric insertion a qualifying character performs on the regular
`hmtx` table. -/
def insMetric (regular_cmap : List (Nat × String)) (bold_font : TTFontT)
    (h : List (String × Nat)) (c : Char) : List (String × Nat) :=
  match lookupC regular_cmap c.toNat, lookupC bold_font.cmap c.toNat with
  | some regular_glyph, some bold_glyph =>
    match lookupG bold_font.hmtx bold_glyph with
    | some m => setG h (regular_glyph ++ ".bold") m
    | none => h
  | _, _ => h

/-- Characterization of the `add_bold_glyphs` loop: the count is the
number of qualifying characters, the `glyf` table receives exactly the
qualifying characters' outlines, and the `hmtx` table exactly the
metric-qualifying characters' metrics. -/
theorem boldVariantStep_fold (rc : List (Nat × String)) (b : TTFontT) :
    ∀ (cs : List Char) (g h : List (String × Nat)) (n : Nat),
    cs.foldl (boldVariantStep rc b) (g, h, n) =
      ((cs.filter (hasBoldSource rc b)).foldl (insOutline rc b) g,
       (cs.filter (hasBoldMetric rc b)).foldl (insMetric rc b) h,
       n + (cs.filter (hasBoldSource rc b)).length) := by
  intro cs
  induction cs with
  | nil => intro g h n; simp
  | cons c cs ih =>
    intro g h n
    rcases hc1 : lookupC rc c.toNat with _ | rg
    · have hs : hasBoldSource rc b c = false := by simp [hasBoldSource, hc1]
      have hm : hasBoldMetric rc b c = false := by simp [hasBoldMetric, hc1]
      have hstep : boldVariantStep rc b (g, h, n) c = (g, h, n) := by
        simp [boldVariantStep, hc1]
      simp [List.foldl_cons, List.filter_cons, hs, hm, hstep, ih]
    · rcases hc2 : lookupC b.cmap c.toNat with _ | bg
      · have hs : hasBoldSource rc b c = false := by simp [hasBoldSource, hc1, hc2]
        have hm : hasBoldMetric rc b c = false := by simp [hasBoldMetric, hc1, hc2]
        have hstep : boldVariantStep rc b (g, h, n) c = (g, h, n) := by
          simp [boldVariantStep, hc1, hc2]
        simp [List.foldl_cons, List.filter_cons, hs, hm, hstep, ih]
      · rcases hc3 : lookupG b.glyf bg with _ | o
        · have hs : hasBoldSource rc b c = false := by
            simp [hasBoldSource, hc1, hc2, hc3]
          have hm : hasBoldMetric rc b c = false := by
            simp [hasBoldMetric, hc1, hc2, hc3]
          have hstep : boldVariantStep rc b (g, h, n) c = (g, h, n) := by
            simp [boldVariantStep, hc1, hc2, hc3]
          simp [List.foldl_cons, List.filter_cons, hs, hm, hstep, ih]
        · rcases hc4 : lookupG b.hmtx bg with _ | m
          · have hs : hasBoldSource rc b c = true := by
              simp [hasBoldSource, hc1, hc2, hc3]
            have hm : hasBoldMetric rc b c = false := by
              simp [hasBoldMetric, hc1, hc2, hc3, hc4]
            have hstep : boldVariantStep rc b (g, h, n) c =
                (setG g (rg ++ ".bold") o, h, n + 1) := by
              simp [boldVariantStep, hc1, hc2, hc3, hc4]
            have hins : insOutline rc b g c = setG g (rg ++ ".bold") o := by
              simp [insOutline, hc1, hc2, hc3]
            simp only [List.foldl_cons, List.filter_cons, hs, hm, hstep, ih,
              if_true, if_false, hins, List.length_cons, Bool.false_eq_true]
            refine congrArg _ (congrArg _ ?_)
            omega
          · have hs : hasBoldSource rc b c = true := by
              simp [hasBoldSource, hc1, hc2, hc3]
            have hm : hasBoldMetric rc b c = true := by
              simp [hasBoldMetric, hc1, hc2, hc3, hc4]
            have hstep : boldVariantStep rc b (g, h, n) c =
                (setG g (rg ++ ".bold") o, setG h (rg ++ ".bold") m, n + 1) := by
              simp [boldVariantStep, hc1, hc2, hc3, hc4]
            have hins : insOutline rc b g c = setG g (rg ++ ".bold") o := by
              simp [insOutline, hc1, hc2, hc3]
            have hins2 : insMetric rc b h c = setG h (rg ++ ".bold") m := by
              simp [insMetric, hc1, hc2, hc4]
            simp only [List.foldl_cons, List.filter_cons, hs, hm, hstep, ih,
              if_true, if_false, hins, hins2, List.length_cons, Bool.false_eq_true]
            refine congrArg _ (congrArg _ ?_)
            omega

/-! ## Name-table update (`main`, lines 174–181)

For every name record with `nameID` 1 (Family) or 4 (FullName), `main`
appends `" Fast"` to the record's string unless the string already
contains `"Fast"` as a substring (Python's `'Fast' not in old_name`). -/

/-- Substring containment, as Python's `needle in hay`. -/
def containsSub (needle : List Char) : List Char → Bool
  | [] => List.isPrefixOf needle []
  | a :: t => List.isPrefixOf needle (a :: t) || containsSub needle t

/-- The update `main` applies to one name string. -/
def updateNameStr (s : List Char) : List Char :=
  if containsSub "Fast".toList s then s else s ++ " Fast".toList

/-- A name record: its `nameID` and its string. -/
structure NameRecord where
  nameID : Nat
  str : List Char
deriving DecidableEq, Repr

/-- The name-table pass of `main`: update records with `nameID` 1 or 4. -/
def updateNames (t : List NameRecord) : List NameRecord :=
  t.map (fun r =>
    if r.nameID = 1 ∨ r.nameID = 4 then ⟨r.nameID, updateNameStr r.str⟩ else r)

theorem containsSub_append_fast (s : List Char) :
    containsSub "Fast".toList (s ++ " Fast".toList) = true := by
  induction s with
  | nil => decide
  | cons a s ih =>
    rw [List.cons_append]
    show (List.isPrefixOf "Fast".toList (a :: (s ++ " Fast".toList)) ||
      containsSub "Fast".toList (s ++ " Fast".toList)) = true
    rw [ih, Bool.or_true]

theorem updateNameStr_idem (s : List Char) :
    updateNameStr (updateNameStr s) = updateNameStr s := by
  by_cases h : containsSub "Fast".toList s = true
  · have e : updateNameStr s = s := by unfold updateNameStr; rw [if_pos h]
    rw [e]
    exact e
  · have e : updateNameStr s = s ++ " Fast".toList := by
      unfold updateNameStr; rw [if_neg h]
    rw [e]
    unfold updateNameStr
    rw [if_pos (containsSub_append_fast s)]

/-! ## Concrete scenario data -/

/-- A regular font covering all 52 letters (glyph name = the letter). -/
def demoRegular : TTFontT :=
  ⟨chars.map (fun c => (c.toNat, String.singleton c)),
   chars.map (fun c => (String.singleton c, c.toNat)),
   chars.map (fun c => (String.singleton c, 600))⟩

/-- A bold font whose cmap defines only 50 of the 52 letters (`Y` and `Z`
are absent), with outlines and metrics for all 50. -/
def demoBold50 : TTFontT :=
  ⟨(chars.filter (fun c => !(c == 'Y' || c == 'Z'))).map
      (fun c => (c.toNat, String.singleton c ++ "B")),
   (chars.filter (fun c => !(c == 'Y' || c == 'Z'))).map
      (fun c => (String.singleton c ++ "B", c.toNat + 1000)),
   (chars.filter (fun c => !(c == 'Y' || c == 'Z'))).map
      (fun c => (String.singleton c ++ "B", 700))⟩

/-- As `demoBold50`, but the glyph for `x` is additionally missing from
the bold `glyf` table (while still mapped in the cmap). -/
def demoBold50NoX : TTFontT :=
  ⟨(chars.filter (fun c => !(c == 'Y' || c == 'Z'))).map
      (fun c => (c.toNat, String.singleton c ++ "B")),
   (chars.filter (fun c => !(c == 'Y' || c == 'Z' || c == 'x'))).map
      (fun c => (String.singleton c ++ "B", c.toNat + 1000)),
   (chars.filter (fun c => !(c == 'Y' || c == 'Z'))).map
      (fun c => (String.singleton c ++ "B", 700))⟩

/-- A one-letter regular font. -/
def tinyRegular : TTFontT := ⟨[(97, "a")], [("a", 1)], [("a", 5)]⟩

/-- A one-letter bold font with outline and metric. -/
def tinyBold : TTFontT := ⟨[(97, "aB")], [("aB", 2)], [("aB", 6)]⟩

/-- A one-letter bold font with an outline but no `hmtx` metric entry. -/
def tinyBoldNoMetric : TTFontT := ⟨[(97, "aB")], [("aB", 2)], []⟩

/-- The rule list with the 12–13 tier's ignore window widened to the
13 tokens the spec prescribes (`pre = 5`, `post = 7`); used to show the
source's 12-token ignore is behaviorally harmless. -/
def rulesIntended : List FeaRule :=
  [⟨true, 7, 10⟩, ⟨false, 6, 10⟩,
   ⟨true, 6, 8⟩, ⟨false, 5, 8⟩,
   ⟨true, 5, 7⟩, ⟨false, 4, 7⟩,
   ⟨true, 4, 5⟩, ⟨false, 3, 5⟩,
   ⟨true, 3, 4⟩, ⟨false, 2, 4⟩,
   ⟨true, 2, 2⟩, ⟨false, 1, 2⟩,
   ⟨true, 1, 0⟩, ⟨false, 0, 0⟩]

/-- First firing rule at a window, under the 13-token-ignore rule list. -/
def firedRuleIntended (N q : Nat) : Option FeaRule :=
  rulesIntended.find? (fun r => smatch r N q)

/-- Bolding decision under the 13-token-ignore rule list. -/
def boldAtIntended (N q : Nat) : Bool :=
  match firedRuleIntended N q with
  | some r => !r.isIgnore
  | none => false

/-! ## Claim theorems -/

/-- Is this list of numbers in strictly descending order? -/
def strictDescending : List Nat → Bool
  | [] => true
  | [_] => true
  | a :: b :: t => decide (b < a) && strictDescending (b :: t)

/-- Is this list of numbers in (weakly) ascending order? -/
def ascendingBool : List Nat → Bool
  | [] => true
  | [_] => true
  | a :: b :: t => decide (a ≤ b) && ascendingBool (b :: t)

/-- C1 (counterexample): it is not true that exactly one tier's
substitution rule fires on a word; on a word of true length 4
(contained in the 4–6 tier), the 1–3 tier's substitution rule fires at
window offset 0 and the 4–6 tier's substitution rule fires at window
offset 1 — two different tiers' substitution rules fire, and the word
ends up with its first two glyphs bolded by those two distinct rules. -/
theorem C1_counterexample :
    tierFor 4 = some ⟨4, some 6, 2⟩ ∧
    firedRule 4 0 = some (Tier.subRule ⟨1, some 3, 1⟩) ∧
    firedRule 4 1 = some (Tier.subRule ⟨4, some 6, 2⟩) ∧
    Tier.subRule ⟨1, some 3, 1⟩ ≠ Tier.subRule ⟨4, some 6, 2⟩ ∧
    runCalt (List.replicate 4 false) = [true, true, false, false] := by
  decide

/-- C1 (amended): for every word of true length `N ≥ 1`, the engine bolds
exactly the first `boldCountFor N` glyphs (the count of the tier whose
`[minLen, maxLen]` contains `N`); the substitution rule firing at the
decisive window offset `boldCountFor N - 1` is exactly that tier's; and
at every single window at most one rule fires (first-match discipline) —
so no two compiled rules fire simultaneously on the same window, for any
word length. -/
theorem C1_tier_dispatch :
    (∀ N q, 1 ≤ N → q < N →
      ((runCalt (List.replicate N false))[q]? = some true ↔ q < boldCountFor N)) ∧
    (∀ N, 1 ≤ N →
      firedRule N (boldCountFor N - 1) = (tierFor N).map Tier.subRule) ∧
    (∀ N q, ∀ i j : Fin rules.length, firesAt N q i → firesAt N q j → i = j) := by
  refine ⟨?_, firedRule_decisive, ?_⟩
  · intro N q h1 h2
    rw [runCalt_getElem, if_pos h2]
    simp only [Option.some.injEq]
    exact boldAt_iff N q h2
  · intro N q i j hi hj
    exact firesAt_unique N q i j hi hj

/-- Witness for C1 (amended), at word length 9 (tier 9–11, bold 4) and at
the last rule firing at window 0 of a length-20 word. -/
theorem C1_tier_dispatch_witness :
    ((runCalt (List.replicate 9 false))[3]? = some true) ∧
    firedRule 9 (boldCountFor 9 - 1) = (tierFor 9).map Tier.subRule ∧
    (⟨13, by decide⟩ : Fin rules.length) = ⟨13, by decide⟩ := by
  refine ⟨(C1_tier_dispatch.1 9 3 (by decide) (by decide)).mpr (by decide),
    C1_tier_dispatch.2.1 9 (by decide),
    C1_tier_dispatch.2.2 20 0 ⟨13, by decide⟩ ⟨13, by decide⟩ (by decide) (by decide)⟩

/-- C2 (counterexample): the open-ended 17+ tier does NOT emit a
substitution rule only — the compiled sequence has 14 statements, not 13,
and its very first statement is the 17+ tier's 18-token exclusion
(`ignore`) rule. -/
theorem C2_counterexample :
    rules.length = 14 ∧
    rules[0]? = some ⟨true, 7, 10⟩ ∧
    (⟨true, 7, 10⟩ : FeaRule).isIgnore = true ∧
    (⟨true, 7, 10⟩ : FeaRule).window = 18 ∧
    (ruleLines make_fast_font_features).length = 14 := by
  decide

/-- C2 (amended): the rule sequence lists the seven tiers in strictly
descending order of `minLen`, and EVERY tier — including the open-ended
`[17, ∞)` tier, which comes first — contributes an exclusion rule
immediately followed by its substitution rule (14 statements in all). -/
theorem C2_structure :
    strictDescending (tiers.map Tier.minLen) = true ∧
    tiers[0]? = some ⟨17, none, 7⟩ ∧
    rules.length = 2 * tiers.length ∧
    ((List.range tiers.length).all (fun k =>
      ((rules[2*k]?).elim false FeaRule.isIgnore) &&
      (rules[2*k+1]? == (tiers[k]?).map Tier.subRule))) = true := by
  decide

/-- C3 (counterexample): the 12–13 tier's exclusion rule does not span
`minLen + 1 = 13` class tokens: the fifth rule statement of the feature
text has only 12 class tokens (12 `@`-classes); moreover the exclusion
window never equals the next-longer tier's substitution window here
(13 would still differ from the 14–16 tier's 14-token substitution). -/
theorem C3_counterexample :
    tiers[2]? = some ⟨12, some 13, 5⟩ ∧
    rules[4]? = some ⟨true, 5, 6⟩ ∧
    (⟨true, 5, 6⟩ : FeaRule).window = 12 ∧
    ((ruleLines make_fast_font_features)[4]?).elim 0 (fun l => l.count '@') = 12 ∧
    ¬ (12 : Nat) = 12 + 1 ∧
    tiers[1]? = some ⟨14, some 16, 6⟩ ∧
    (Tier.subRule ⟨14, some 16, 6⟩).window = 14 ∧
    ¬ (12 : Nat) + 1 = 14 := by
  decide

/-- C3 (amended): six of the seven tiers' exclusion rules have exactly
`minLen + 1` class tokens (windows 18, 15, 10, 8, 5, 2); the 12–13 tier's
exclusion has 12 instead of the prescribed 13 — an apparent slip that is
behaviorally harmless: replacing it by the 13-token version changes the
engine's bolding decision at no position for any word length up to 60.
No tier's exclusion window equals the next-longer tier's substitution
window (those are `minLen + 1` versus the next tier's `minLen`, which
differ for every adjacent pair of this table). -/
theorem C3_exclusion_windows :
    (rules.filterMap (fun r => if r.isIgnore then some r.window else none)) =
      [18, 15, 12, 10, 8, 5, 2] ∧
    (tiers.map (fun t => t.ignRule.window)) = [18, 15, 13, 10, 8, 5, 2] ∧
    ((List.range tiers.length).all (fun k =>
      (k == 2) || ((rules[2*k]?).elim false (fun r =>
        r.window == (tiers[k]?).elim 0 (fun t => t.minLen + 1))))) = true ∧
    ((List.range 6).all (fun k =>
      !((rules[2*(k+1)]?).elim false (fun r =>
        (tiers[k]?).elim false (fun t => r.window == t.subRule.window))))) = true ∧
    (∀ N, N < 61 → ∀ q, q < N → boldAtIntended N q = boldAt N q) := by
  refine ⟨by decide, by decide, by decide, by decide, by decide⟩

/-- C4 (counterexample): a tier's substitution rule does not rewrite the
whole prefix `[0, B)`: at window offset 2 of a fresh 7-glyph word the
7–8 tier's substitution rule (B = 3) is the rule that fires, and applying
it rewrites only the marked glyph at offset 2 — offsets 0 and 1 stay
base glyphs. -/
theorem C4_counterexample :
    rules.find? (fun r => matchesAt r (List.replicate 7 false) 2) =
      some (Tier.subRule ⟨7, some 8, 3⟩) ∧
    step (List.replicate 7 false) 2 =
      [false, false, true, false, false, false, false] ∧
    (step (List.replicate 7 false) 2)[0]? = some false ∧
    (0 : Nat) < 3 := by
  decide

/-- C4 (amended): for every tier, the substitution rule matches a window
of exactly `minLen` class tokens with the marked base-class glyph at
0-indexed offset `bold - 1`, and its application rewrites only that one
marked glyph to its emphasized counterpart; the whole prefix `[0, bold)`
is bolded cumulatively by the shorter tiers' rules firing at the earlier
offsets, as the engine's output on 7- and 12-glyph words shows. -/
theorem C4_substitution_windows :
    ((List.range tiers.length).all (fun k =>
      (tiers[k]?).elim false (fun t =>
        (rules[2*k+1]? == some t.subRule) &&
        (t.subRule.window == t.minLen) &&
        (t.subRule.pre == t.bold - 1) &&
        (!t.subRule.isIgnore) &&
        decide (1 ≤ t.bold)))) = true ∧
    step (List.replicate 7 false) 2 =
      [false, false, true, false, false, false, false] ∧
    runCalt (List.replicate 7 false) =
      [true, true, true, false, false, false, false] ∧
    runCalt (List.replicate 12 false) =
      List.replicate 5 true ++ List.replicate 7 false := by
  decide

/-- C5 (counterexample): with a 52-letter charset and an emphasis source
whose character map defines exactly 50 letters (`Y`, `Z` absent), the
claimed report `succeeded == 50` does not hold of the code as soon as one
of those 50 cmap-defined glyphs lacks an outline in the bold `glyf`
table: the returned count is then 49, and the function returns only this
bare count — no `attempted` value and no `missing` list exist in its
result. -/
theorem C5_counterexample :
    demoBold50NoX.cmap.length = 50 ∧
    (add_bold_glyphs demoRegular demoBold50NoX).2.2 = 49 ∧
    ¬ (add_bold_glyphs demoRegular demoBold50NoX).2.2 = 50 ∧
    lookupG (add_bold_glyphs demoRegular demoBold50NoX).1.glyf "x.bold" = none := by
  decide

/-- C5 (amended): characters absent from either character map are
silently skipped — the batch completes and the remaining characters
succeed.  With the 52-letter charset and an emphasis source defining 50
letters, all of whose bold glyphs carry outlines, the returned count is
50, and the two absent letters contribute no `.bold` variants; but the
code records no `missing` list and no `attempted` count — its only
output besides the mutated tables is the integer success count. -/
theorem C5_partial_miss :
    demoBold50.cmap.length = 50 ∧
    (add_bold_glyphs demoRegular demoBold50).2.2 = 50 ∧
    lookupG (add_bold_glyphs demoRegular demoBold50).1.glyf "Y.bold" = none ∧
    lookupG (add_bold_glyphs demoRegular demoBold50).1.glyf "Z.bold" = none ∧
    lookupG (add_bold_glyphs demoRegular demoBold50).1.glyf "a.bold" = some 1097 ∧
    (add_bold_glyphs demoRegular demoBold50).1.glyf.length =
      demoRegular.glyf.length + 50 := by
  decide

/-- C6 (counterexample): the base font's glyph store is NOT unchanged:
`add_bold_glyphs` mutates the regular font's `glyf` and `hmtx` tables in
place, inserting the `.bold` variants (here `a.bold`). -/
theorem C6_counterexample :
    (add_bold_glyphs tinyRegular tinyBold).1.glyf ≠ tinyRegular.glyf ∧
    (add_bold_glyphs tinyRegular tinyBold).1.glyf = [("a", 1), ("a.bold", 2)] ∧
    (add_bold_glyphs tinyRegular tinyBold).1.hmtx = [("a", 5), ("a.bold", 6)] := by
  decide

/-- C6 (amended): the bold (emphasis-source) font is a read-only input —
its tables are unchanged by `add_bold_glyphs` — and the regular font's
character map is also untouched; only the regular font's `glyf` and
`hmtx` tables are mutated (by inserting the synthesized variants). -/
theorem C6_sources_readonly :
    ∀ font bold_font : TTFontT,
      (add_bold_glyphs font bold_font).2.1 = bold_font ∧
      (add_bold_glyphs font bold_font).1.cmap = font.cmap :=
  fun _ _ => ⟨rfl, rfl⟩

/-- C7 (counterexample): the synthesis charset is NOT iterated in
ascending code point order: `'a'` (97) is processed first whereas `'A'`
(65) only comes 27th. -/
theorem C7_counterexample :
    chars[0]? = some 'a' ∧ chars[26]? = some 'A' ∧
    'A'.toNat < 'a'.toNat ∧
    ascendingBool (chars.map Char.toNat) = false := by
  decide

/-- C7 (amended): the iteration order is deterministic but not globally
ascending: the 26 lowercase letters in ascending code point order
(97–122) followed by the 26 uppercase letters in ascending order
(65–90). -/
theorem C7_iteration_order :
    chars.map Char.toNat = (List.range' 97 26) ++ (List.range' 65 26) ∧
    ascendingBool ((chars.take 26).map Char.toNat) = true ∧
    ascendingBool ((chars.drop 26).map Char.toNat) = true ∧
    chars.length = 52 := by
  decide

/-- C8 (counterexample): rule compilation cannot raise `PolicyError` and
never produces zero rules — `make_fast_font_features` takes no policy
input at all and unconditionally returns the same fixed feature text
containing 14 rule statements. -/
theorem C8_counterexample :
    rules.length = 14 ∧ rules ≠ [] ∧
    ruleLines make_fast_font_features = rules.map renderRule :=
  ⟨by decide, by decide, ruleLines_eq_render⟩

/-- C8 (amended): there is no policy validation: the rule generator is a
constant with no input and no failure path, always emitting exactly the
same 14 statements — 7 exclusion rules and 7 substitution rules. -/
theorem C8_constant_emission :
    ruleLines make_fast_font_features = rules.map renderRule ∧
    (rules.filter FeaRule.isIgnore).length = 7 ∧
    (rules.filter (fun r => !r.isIgnore)).length = 7 :=
  ⟨ruleLines_eq_render, by decide, by decide⟩

/-- C9 (confirmed): the name update of the pipeline is idempotent — for
records of kind Family (nameID 1) or FullName (nameID 4) the `" Fast"`
suffix is appended only when the name does not already contain `"Fast"`,
so a second pass leaves every record unchanged. -/
theorem C9_idempotent :
    ∀ t : List NameRecord, updateNames (updateNames t) = updateNames t := by
  intro t
  unfold updateNames
  rw [List.map_map]
  refine List.map_congr_left ?_
  intro r _
  by_cases h : r.nameID = 1 ∨ r.nameID = 4
  · simp [Function.comp, h, updateNameStr_idem]
  · simp [Function.comp, h]

/-- C10 (confirmed): `add_bold_glyphs` returns exactly the number of
characters of `a–z`, `A–Z` that are in both cmaps and whose bold glyph
is present in the bold `glyf` table; exactly those characters' `.bold`
variants are inserted into the regular `glyf`, while `hmtx` receives a
copy only for those whose bold glyph additionally appears in the bold
`hmtx` metrics — so a variant can be counted with an outline but no
copied metric, as the concrete instance shows. -/
theorem C10_count_and_tables :
    (∀ font bold_font : TTFontT,
      (add_bold_glyphs font bold_font).2.2 =
        (chars.filter (hasBoldSource font.cmap bold_font)).length ∧
      (add_bold_glyphs font bold_font).1.glyf =
        (chars.filter (hasBoldSource font.cmap bold_font)).foldl
          (insOutline font.cmap bold_font) font.glyf ∧
      (add_bold_glyphs font bold_font).1.hmtx =
        (chars.filter (hasBoldMetric font.cmap bold_font)).foldl
          (insMetric font.cmap bold_font) font.hmtx) ∧
    (add_bold_glyphs tinyRegular tinyBoldNoMetric).2.2 = 1 ∧
    lookupG (add_bold_glyphs tinyRegular tinyBoldNoMetric).1.glyf "a.bold" = some 2 ∧
    lookupG (add_bold_glyphs tinyRegular tinyBoldNoMetric).1.hmtx "a.bold" = none := by
  refine ⟨?_, by decide, by decide, by decide⟩
  intro f b
  have h := boldVariantStep_fold f.cmap b chars f.glyf f.hmtx 0
  refine ⟨?_, ?_, ?_⟩
  · show (chars.foldl (boldVariantStep f.cmap b) (f.glyf, f.hmtx, 0)).2.2 = _
    rw [h]
    simp
  · show (chars.foldl (boldVariantStep f.cmap b) (f.glyf, f.hmtx, 0)).1 = _
    rw [h]
  · show (chars.foldl (boldVariantStep f.cmap b) (f.glyf, f.hmtx, 0)).2.1 = _
    rw [h]

/-- Witness for C3 (amended): the harmlessness conjunct applied at word
length 13, window offset 5 — the very window the 12-versus-13-token
ignore discrepancy could have influenced. -/
theorem C3_exclusion_windows_witness :
    boldAtIntended 13 5 = boldAt 13 5 :=
  C3_exclusion_windows.2.2.2.2 13 (by decide) 5 (by decide)
